import Mathlib

/-!
Shallow embedding of the DeFi yield-optimizer core: the allocation engine
(`src/strategies.js`, class `YieldFarmingStrategies`) and the historical
simulation engine (class `BacktestEngine`).  JavaScript numbers are modelled
as rationals (`ℚ`); JS objects with optional fields are modelled with
`Option`; a thrown JS exception is modelled as `Except.error` carrying the
message.  JS division is total on floats; `ℚ` division by zero yields 0, and
no theorem below relies on a division whose denominator can be zero unless
stated.
-/

deriving instance DecidableEq for Except

/-- An opportunity record as consumed by the engines.  Fields that the source
reads but callers may omit (`tvl`, `audited`, `ageInDays`) are `Option`,
mirroring a possibly-absent JS object property (`none` = `undefined`). -/
structure Opportunity where
  name : String
  protocol : String
  apy : ℚ
  tvl : Option ℚ
  audited : Option Bool
  ageInDays : Option ℚ
deriving DecidableEq

/-- A strategy profile, as stored in the `strategies` map. -/
structure Strategy where
  name : String
  description : String
  riskTolerance : ℚ
  minAPY : ℚ
  maxSingleAllocation : ℚ
  preferredProtocols : List String
  rebalanceFrequency : String
deriving DecidableEq

/-- The built-in `conservative` profile. -/
def conservative : Strategy :=
  { name := "Conservative Yield", description := "Low risk, stable returns",
    riskTolerance := 0.3, minAPY := 0.02, maxSingleAllocation := 0.25,
    preferredProtocols := ["compound", "aave"], rebalanceFrequency := "weekly" }

/-- The built-in `moderate` profile. -/
def moderate : Strategy :=
  { name := "Moderate Growth", description := "Balanced risk-reward",
    riskTolerance := 0.6, minAPY := 0.05, maxSingleAllocation := 0.4,
    preferredProtocols := ["compound", "aave", "curve", "yearn"],
    rebalanceFrequency := "daily" }

/-- The built-in `aggressive` profile. -/
def aggressive : Strategy :=
  { name := "High Yield Hunter", description := "Maximum returns, higher risk",
    riskTolerance := 0.9, minAPY := 0.1, maxSingleAllocation := 0.6,
    preferredProtocols := ["yearn", "curve", "uniswap-v2"],
    rebalanceFrequency := "hourly" }

/-- `getStrategy`: lookup in the strategies map keyed by the registration
names used in `initializeStrategies`. -/
def getStrategy (strategyName : String) : Option Strategy :=
  if strategyName = "conservative" then some conservative
  else if strategyName = "moderate" then some moderate
  else if strategyName = "aggressive" then some aggressive
  else none

/-- JS truthiness of a possibly-absent boolean property: only a present
`true` is truthy (`undefined` and `false` are falsy). -/
def jsTruthy : Option Bool → Bool
  | some true => true
  | _ => false

/-- JS comparison `x < c` where `x` may be `undefined`: comparing
`undefined` with a number is `false`. -/
def jsLt (x : Option ℚ) (c : ℚ) : Bool :=
  match x with
  | some v => decide (v < c)
  | none => false

/-- `calculateRisk(protocol, strategy)` from `YieldFarmingStrategies`
(base 0.5; the `strategy` argument is unused by the source body). -/
def calculateRisk (protocol : Opportunity) (_strategy : Strategy) : ℚ :=
  let risk : ℚ := 0.5
  let risk := if jsTruthy protocol.audited then risk else risk + 0.2
  let risk := if jsLt protocol.ageInDays 90 then risk + 0.3 else risk
  let risk := if jsLt protocol.tvl 10000000 then risk + 0.2 else risk
  min 1 risk

/-- The risk-adjusted return used by the allocation-engine comparator:
`apy * (1 - calculateRisk(p, strategy))`. -/
def riskAdjustedReturn (strategy : Strategy) (p : Opportunity) : ℚ :=
  p.apy * (1 - calculateRisk p strategy)

/-- The ordering relation realised by the JS comparator
`(a, b) => bScore - aScore`: `a` precedes `b` iff `score b ≤ score a`.
`Array.prototype.sort` is a stable sort, so the sorted array is exactly
`List.insertionSort` with this relation. -/
abbrev scoreGe (strategy : Strategy) (a b : Opportunity) : Prop :=
  riskAdjustedReturn strategy b ≤ riskAdjustedReturn strategy a

instance (strategy : Strategy) : DecidableRel (scoreGe strategy) :=
  fun _ _ => inferInstanceAs (Decidable (_ ≤ _))

/-- One entry of an allocation, as pushed by `createAllocation`. -/
structure AllocationEntry where
  protocol : String
  amount : ℚ
  percentage : ℚ
  expectedAPY : ℚ
  risk : ℚ
deriving DecidableEq

/-- The object returned by `optimizeForStrategy`.  The early-return object
for an empty eligible set carries only `allocations`, `totalYield`, `risk`;
the object built by `createAllocation` carries only `strategy`,
`allocations`, `totalAmount`, `expectedYield`, `averageRisk`,
`diversification`.  Absent JS keys are `none`. -/
structure AllocationResult where
  strategy : Option String := none
  allocations : List AllocationEntry
  totalAmount : Option ℚ := none
  expectedYield : Option ℚ := none
  averageRisk : Option ℚ := none
  diversification : Option ℕ := none
  totalYield : Option ℚ := none
  risk : Option ℚ := none
deriving DecidableEq

/-- The allocation loop of `createAllocation`, recursing over the (at most
five) sorted protocols while `remainingAmount > 0`.  Returns
`(allocations, totalYield, totalRisk, remainingAmount)`. -/
def allocLoop (strategy : Strategy) (totalAmount : ℚ) :
    List Opportunity → ℚ → List AllocationEntry × ℚ × ℚ × ℚ
  | [], remainingAmount => ([], 0, 0, remainingAmount)
  | p :: ps, remainingAmount =>
    if 0 < remainingAmount then
      let maxAllocation := totalAmount * strategy.maxSingleAllocation
      let allocation := min remainingAmount maxAllocation
      let rest := allocLoop strategy totalAmount ps (remainingAmount - allocation)
      (({ protocol := p.name, amount := allocation,
          percentage := allocation / totalAmount * 100,
          expectedAPY := p.apy,
          risk := calculateRisk p strategy } : AllocationEntry) :: rest.1,
       allocation * p.apy + rest.2.1,
       allocation / totalAmount * calculateRisk p strategy + rest.2.2.1,
       rest.2.2.2)
    else ([], 0, 0, remainingAmount)

/-- `createAllocation(protocols, strategy, totalAmount)`. -/
def createAllocation (protocols : List Opportunity) (strategy : Strategy)
    (totalAmount : ℚ) : AllocationResult :=
  let maxProtocols := min protocols.length 5
  let res := allocLoop strategy totalAmount (protocols.take maxProtocols) totalAmount
  { strategy := some strategy.name,
    allocations := res.1,
    totalAmount := some totalAmount,
    expectedYield := some (res.2.1 / totalAmount),
    averageRisk := some res.2.2.1,
    diversification := some res.1.length }

/-- The eligibility filter of `optimizeForStrategy` step 1:
`apy >= minAPY && preferredProtocols.includes(protocol.toLowerCase())`. -/
def suitableFor (strategy : Strategy) (availableProtocols : List Opportunity) :
    List Opportunity :=
  availableProtocols.filter fun p =>
    decide (strategy.minAPY ≤ p.apy) &&
      strategy.preferredProtocols.contains p.protocol.toLower

/-- `optimizeForStrategy(strategyName, availableProtocols, amount)`.  An
unknown strategy name throws (`Except.error` with the source's message); no
validation of `amount` is performed anywhere in the source. -/
def optimizeForStrategy (strategyName : String)
    (availableProtocols : List Opportunity) (amount : ℚ) :
    Except String AllocationResult :=
  match getStrategy strategyName with
  | none => .error ("Strategy " ++ strategyName ++ " not found")
  | some strategy =>
    let suitableProtocols := suitableFor strategy availableProtocols
    if suitableProtocols.length = 0 then
      .ok { allocations := [], totalYield := some 0, risk := some 0 }
    else
      let sortedProtocols := List.insertionSort (scoreGe strategy) suitableProtocols
      .ok (createAllocation sortedProtocols strategy amount)

/-- The optional `signals` object of a market snapshot. -/
structure Signals where
  momentum : ℚ
deriving DecidableEq

/-- One historical market snapshot as consumed by `runBacktest`. -/
structure Snapshot where
  timestamp : ℚ
  prices : List (String × ℚ)
  protocols : List Opportunity
  signals : Option Signals
deriving DecidableEq

/-- `assessRisk(protocol)` from `BacktestEngine` (base 0.3, same penalties
and the same JS comparison semantics as `calculateRisk`). -/
def assessRisk (protocol : Opportunity) : ℚ :=
  let risk : ℚ := 0.3
  let risk := if jsTruthy protocol.audited then risk else risk + 0.2
  let risk := if jsLt protocol.ageInDays 90 then risk + 0.3 else risk
  let risk := if jsLt protocol.tvl 10000000 then risk + 0.2 else risk
  min 1 risk

/-- The score used by `findBestProtocol`: `apy * (1 - assessRisk(p))`. -/
def backtestScore (p : Opportunity) : ℚ :=
  p.apy * (1 - assessRisk p)

/-- Ordering realised by the comparator in `findBestProtocol`. -/
abbrev backtestScoreGe (a b : Opportunity) : Prop :=
  backtestScore b ≤ backtestScore a

instance : DecidableRel backtestScoreGe :=
  fun _ _ => inferInstanceAs (Decidable (_ ≤ _))

/-- `findBestProtocol(protocols, strategyConfig)`: filter by allow-list,
filter by minimum APY, stable-sort by descending score, take the head. -/
def findBestProtocol (protocols : List Opportunity) (strategyConfig : Strategy) :
    Option Opportunity :=
  (List.insertionSort backtestScoreGe
    ((protocols.filter fun p =>
        strategyConfig.preferredProtocols.contains p.protocol.toLower).filter
      fun p => decide (strategyConfig.minAPY ≤ p.apy))).head?

/-- A decision produced by the decision phase of a backtest step. -/
inductive Decision where
  | hold : Decision
  | buy : String → ℚ → Decision
  | sell : String → ℚ → Decision
deriving DecidableEq

/-- The TypeError raised when the buy branch of `makeStrategyDecision`
evaluates `this.getAvailableCapital() * 0.1`: no method named
`getAvailableCapital` is defined anywhere in the repository, so the call
throws. -/
def getAvailableCapitalMsg : String :=
  "TypeError: this.getAvailableCapital is not a function"

/-- The risk-management loop of `makeStrategyDecision`: iterate the held
protocols in insertion order; the first one whose snapshot data exists and
whose assessed risk exceeds the tolerance is sold (half the held amount). -/
def sellScan (strategyConfig : Strategy) (protocols : List Opportunity) :
    List (String × ℚ) → Option (String × ℚ)
  | [] => none
  | (protocolName, amount) :: rest =>
    match protocols.find? (fun p => p.name == protocolName) with
    | some protocolData =>
      if strategyConfig.riskTolerance < assessRisk protocolData then
        some (protocolName, amount * 0.5)
      else sellScan strategyConfig protocols rest
    | none => sellScan strategyConfig protocols rest

/-- `makeStrategyDecision(strategyName, marketData, currentPortfolio)`.
An unknown strategy returns `hold`.  When the buy trigger holds
(momentum signal present and `> 0.05`, a best protocol exists and its
`apy > minAPY`) the source computes
`Math.min(1000, this.getAvailableCapital() * 0.1)`, which throws. -/
def makeStrategyDecision (strategyName : String) (marketData : Snapshot)
    (currentHoldings : List (String × ℚ)) : Except String Decision :=
  match getStrategy strategyName with
  | none => .ok .hold
  | some strategyConfig =>
    let sellPhase : Except String Decision :=
      match sellScan strategyConfig marketData.protocols currentHoldings with
      | some (protocolName, amount) => .ok (.sell protocolName amount)
      | none => .ok .hold
    match marketData.signals with
    | some sig =>
      if 0.05 < sig.momentum then
        match findBestProtocol marketData.protocols strategyConfig with
        | some bestProtocol =>
          if strategyConfig.minAPY < bestProtocol.apy then
            .error getAvailableCapitalMsg
          else sellPhase
        | none => sellPhase
      else sellPhase
    | none => sellPhase

/-- `prices[protocol] || 1`: an absent price (`undefined`) and a present
price of `0` (both falsy) yield the default `1`. -/
def jsPriceOr1 (protocol : String) (prices : List (String × ℚ)) : ℚ :=
  match prices.lookup protocol with
  | some price => if price = 0 then 1 else price
  | none => 1

/-- A trade object as returned by `executeBuy` (`cost` set) or
`executeSell` (`proceeds` set); `timestamp` is the `Date.now()` value. -/
structure Trade where
  protocol : String
  amount : ℚ
  price : ℚ
  cost : Option ℚ
  proceeds : Option ℚ
  timestamp : ℚ
deriving DecidableEq

/-- A trade-log record: `{ ...trade, date, type }`. -/
structure TradeRecord where
  trade : Trade
  date : ℚ
  side : String
deriving DecidableEq

/-- `executeBuy(protocol, amount, prices)`; `now` is the wall-clock value
`Date.now()` reads at this call.  Note: no check against available cash. -/
def executeBuy (protocol : String) (amount : ℚ) (prices : List (String × ℚ))
    (now : ℚ) : Trade :=
  let price := jsPriceOr1 protocol prices
  { protocol := protocol, amount := amount, price := price,
    cost := some (amount * price), proceeds := none, timestamp := now }

/-- `executeSell(protocol, amount, prices)`. -/
def executeSell (protocol : String) (amount : ℚ) (prices : List (String × ℚ))
    (now : ℚ) : Trade :=
  let price := jsPriceOr1 protocol prices
  { protocol := protocol, amount := amount, price := price,
    cost := none, proceeds := some (amount * price), timestamp := now }

/-- `calculatePortfolioValue(portfolio, prices)`: fold over the held
protocols in insertion order, adding `amount * (prices[protocol] || 1)`. -/
def calculatePortfolioValue (holdings : List (String × ℚ))
    (prices : List (String × ℚ)) : ℚ :=
  holdings.foldl (fun totalValue e => totalValue + e.2 * jsPriceOr1 e.1 prices) 0

/-- One entry of `results.portfolioHistory`. -/
structure HistEntry where
  date : ℚ
  capital : ℚ
  portfolioValue : ℚ
  totalValue : ℚ
deriving DecidableEq

/-- The loop of `calculateMaxDrawdown` (peak so far, best drawdown so far).
A zero peak makes the drawdown division `0` under the `ℚ` convention. -/
def drawdownLoop : ℚ → ℚ → List HistEntry → ℚ
  | _, maxDrawdown, [] => maxDrawdown
  | peak, maxDrawdown, entry :: rest =>
    let peak2 := if peak < entry.totalValue then entry.totalValue else peak
    let drawdown := (peak2 - entry.totalValue) / peak2
    drawdownLoop peak2 (if maxDrawdown < drawdown then drawdown else maxDrawdown) rest

/-- `calculateMaxDrawdown(portfolioHistory)`; the initial peak is
`portfolioHistory[0]?.totalValue || 0` (`0` for an empty history; a falsy
stored `0` also gives `0`). -/
def calculateMaxDrawdown (portfolioHistory : List HistEntry) : ℚ :=
  let peak := match portfolioHistory.head? with
    | some entry => entry.totalValue
    | none => 0
  drawdownLoop peak 0 portfolioHistory

/-- JS object update `obj[key] = value`: overwrite in place when the key
exists (its position is kept), otherwise append (insertion order). -/
def jsObjSet (key : String) (value : ℚ) : List (String × ℚ) → List (String × ℚ)
  | [] => [(key, value)]
  | (k, v) :: rest =>
    if k = key then (k, value) :: rest else (k, v) :: jsObjSet key value rest

/-- The mutable run state of `runBacktest` (`positions`, `currentCapital`,
`portfolio` as an insertion-ordered association list, and the accumulating
`results` arrays).  `clockCount` counts `Date.now()` invocations so the
wall clock can be modelled as an oracle `ℕ → ℚ`. -/
structure BState where
  positions : List Trade
  currentCapital : ℚ
  holdings : List (String × ℚ)
  trades : List TradeRecord
  portfolioHistory : List HistEntry
  dailyReturns : List ℚ
  clockCount : ℕ
deriving DecidableEq

/-- The fresh state at the start of a run. -/
def initState (initialCapital : ℚ) : BState :=
  { positions := [], currentCapital := initialCapital, holdings := [],
    trades := [], portfolioHistory := [], dailyReturns := [], clockCount := 0 }

/-- One iteration of the `runBacktest` loop: decision phase, execution
phase, valuation phase, daily-return bookkeeping (`i > 0` is equivalent to
the history being non-empty).  `clock` is the wall-clock oracle read by
`Date.now()`. -/
def backtestStep (clock : ℕ → ℚ) (strategyName : String) (currentData : Snapshot)
    (st : BState) : Except String BState :=
  match makeStrategyDecision strategyName currentData st.holdings with
  | .error e => .error e
  | .ok decision =>
    let st1 : BState :=
      match decision with
      | .buy protocol amount =>
        let trade := executeBuy protocol amount currentData.prices (clock st.clockCount)
        { st with
          positions := st.positions ++ [trade],
          currentCapital := st.currentCapital - trade.cost.getD 0,
          holdings := jsObjSet protocol
            ((st.holdings.lookup protocol).getD 0 + trade.amount) st.holdings,
          trades := st.trades ++ [⟨trade, currentData.timestamp, "buy"⟩],
          clockCount := st.clockCount + 1 }
      | .sell protocol amount =>
        let trade := executeSell protocol amount currentData.prices (clock st.clockCount)
        { st with
          currentCapital := st.currentCapital + trade.proceeds.getD 0,
          holdings := jsObjSet protocol
            ((st.holdings.lookup protocol).getD 0 - trade.amount) st.holdings,
          trades := st.trades ++ [⟨trade, currentData.timestamp, "sell"⟩],
          clockCount := st.clockCount + 1 }
      | .hold => st
    let portfolioValue := calculatePortfolioValue st1.holdings currentData.prices
    let totalValue := st1.currentCapital + portfolioValue
    let newReturns :=
      match st1.portfolioHistory.getLast? with
      | some previous =>
        st1.dailyReturns ++ [(totalValue - previous.totalValue) / previous.totalValue]
      | none => st1.dailyReturns
    .ok { st1 with
          portfolioHistory := st1.portfolioHistory ++
            [⟨currentData.timestamp, st1.currentCapital, portfolioValue, totalValue⟩],
          dailyReturns := newReturns }

/-- The strictly sequential snapshot loop of `runBacktest`. -/
def backtestLoop (clock : ℕ → ℚ) (strategyName : String) :
    List Snapshot → BState → Except String BState
  | [], st => .ok st
  | d :: ds, st =>
    match backtestStep clock strategyName d st with
    | .error e => .error e
    | .ok st2 => backtestLoop clock strategyName ds st2

/-- `filterDataByDate(startDate, endDate)`. -/
def filterDataByDate (historicalData : List Snapshot) (startDate endDate : ℚ) :
    List Snapshot :=
  historicalData.filter fun d =>
    decide (startDate ≤ d.timestamp) && decide (d.timestamp ≤ endDate)

/-- The TypeError raised by the final calculations of `runBacktest` when
`portfolioHistory` is empty: `portfolioHistory[length - 1]` is `undefined`
and reading `.totalValue` from it throws. -/
def undefinedTotalValueMsg : String :=
  "TypeError: Cannot read properties of undefined (reading totalValue)"

/-- The `results` object returned by `runBacktest`.  The `sharpeRatio`
field of the source is omitted from the embedding: it is computed with a
floating-point square root and none of the verified properties mention it;
every other field is carried. -/
structure BacktestResult where
  strategy : String
  initialCapital : ℚ
  finalCapital : ℚ
  totalReturn : ℚ
  maxDrawdown : ℚ
  trades : List TradeRecord
  dailyReturns : List ℚ
  portfolioHistory : List HistEntry
deriving DecidableEq

/-- `runBacktest(strategy, startDate, endDate, initialCapital)` over the
engine's `historicalData`, with the wall clock passed as an oracle. -/
def runBacktest (clock : ℕ → ℚ) (strategy : String)
    (historicalData : List Snapshot) (startDate endDate : ℚ)
    (initialCapital : ℚ) : Except String BacktestResult :=
  let filteredData := filterDataByDate historicalData startDate endDate
  match backtestLoop clock strategy filteredData (initState initialCapital) with
  | .error e => .error e
  | .ok st =>
    match st.portfolioHistory.getLast? with
    | none => .error undefinedTotalValueMsg
    | some lastEntry =>
      .ok { strategy := strategy, initialCapital := initialCapital,
            finalCapital := lastEntry.totalValue,
            totalReturn := (lastEntry.totalValue - initialCapital) / initialCapital,
            maxDrawdown := calculateMaxDrawdown st.portfolioHistory,
            trades := st.trades, dailyReturns := st.dailyReturns,
            portfolioHistory := st.portfolioHistory }

/-- The two opportunities of the end-to-end scenario: "A" (compound, apy
0.04, tvl 2e9, audited, age 1000) and "B" (yearn, apy 0.12, tvl 5e6,
unaudited, age 30). -/
def scenarioOpportunities : List Opportunity :=
  [⟨"A", "compound", 0.04, some 2000000000, some true, some 1000⟩,
   ⟨"B", "yearn", 0.12, some 5000000, some false, some 30⟩]

/-! ### Supporting lemmas for the simulation engine -/

/-- With no held protocols, the risk-management loop finds nothing. -/
theorem sellScan_nil (strategyConfig : Strategy) (protocols : List Opportunity) :
    sellScan strategyConfig protocols [] = none := rfl

/-- With no held protocols the decision phase either holds or throws the
`getAvailableCapital` TypeError; in particular it never returns a buy or a
sell. -/
theorem makeStrategyDecision_no_holdings (strategyName : String) (d : Snapshot) :
    makeStrategyDecision strategyName d [] = .ok .hold ∨
    makeStrategyDecision strategyName d [] = .error getAvailableCapitalMsg := by
  unfold makeStrategyDecision
  cases getStrategy strategyName with
  | none => exact .inl rfl
  | some cfg =>
    cases d.signals with
    | none => exact .inl rfl
    | some sig =>
      by_cases hm : (0.05 : ℚ) < sig.momentum
      · simp only [if_pos hm]
        cases findBestProtocol d.protocols cfg with
        | none => exact .inl rfl
        | some best =>
          by_cases hb : cfg.minAPY < best.apy
          · simp only [if_pos hb]
            exact .inr trivial
          · simp only [if_neg hb]
            exact .inl rfl
      · simp only [if_neg hm]
        exact .inl rfl

/-- A step from a state with no holdings does not consult the wall clock,
and leaves the holdings empty. -/
theorem backtestStep_clock_irrel (c₁ c₂ : ℕ → ℚ) (strategyName : String)
    (d : Snapshot) (st : BState) (h : st.holdings = []) :
    backtestStep c₁ strategyName d st = backtestStep c₂ strategyName d st ∧
    ∀ st2, backtestStep c₁ strategyName d st = .ok st2 → st2.holdings = [] := by
  unfold backtestStep
  rw [h]
  rcases makeStrategyDecision_no_holdings strategyName d with hd | hd
  · rw [hd]
    refine ⟨rfl, ?_⟩
    intro st2 hst2
    cases hst2
    simpa using h
  · rw [hd]
    exact ⟨rfl, fun st2 hst2 => by cases hst2⟩

/-- The snapshot loop is independent of the wall-clock oracle from any
state with no holdings. -/
theorem backtestLoop_clock_irrel (c₁ c₂ : ℕ → ℚ) (strategyName : String) :
    ∀ (snaps : List Snapshot) (st : BState), st.holdings = [] →
      backtestLoop c₁ strategyName snaps st = backtestLoop c₂ strategyName snaps st := by
  intro snaps
  induction snaps with
  | nil => intro st _; rfl
  | cons d ds ih =>
    intro st h
    obtain ⟨heq, hpres⟩ := backtestStep_clock_irrel c₁ c₂ strategyName d st h
    unfold backtestLoop
    rw [← heq]
    cases hstep : backtestStep c₁ strategyName d st with
    | error e => rfl
    | ok st2 => exact ih st2 (hpres st2 hstep)

/-- C4: for every strategy and every snapshot sequence, the simulation's
output is a function of the inputs alone: two runs with identical inputs
but arbitrary (different) wall-clock oracles return the same result, hence
identical trade logs and identical value timelines. -/
theorem runBacktest_deterministic (clock₁ clock₂ : ℕ → ℚ) (strategy : String)
    (historicalData : List Snapshot) (startDate endDate initialCapital : ℚ) :
    runBacktest clock₁ strategy historicalData startDate endDate initialCapital =
    runBacktest clock₂ strategy historicalData startDate endDate initialCapital := by
  simp only [runBacktest]
  rw [backtestLoop_clock_irrel clock₁ clock₂ strategy
    (filterDataByDate historicalData startDate endDate) (initState initialCapital) rfl]

/-- C10: a date range matching no historical data makes the run fail (the
final calculations read `.totalValue` from `undefined`) instead of
returning a result with an empty timeline. -/
theorem runBacktest_empty_range_fails (clock : ℕ → ℚ) (strategy : String)
    (historicalData : List Snapshot) (startDate endDate initialCapital : ℚ)
    (h : filterDataByDate historicalData startDate endDate = []) :
    runBacktest clock strategy historicalData startDate endDate initialCapital =
      .error undefinedTotalValueMsg := by
  unfold runBacktest
  rw [h]
  rfl

/-- Witness for C10 at a concrete empty input. -/
theorem runBacktest_empty_range_fails_witness :
    runBacktest (fun _ => 0) "conservative" [] 0 100 10000 =
      .error undefinedTotalValueMsg :=
  runBacktest_empty_range_fails (fun _ => 0) "conservative" [] 0 100 10000 rfl

/-! ### Claims about the allocation engine -/

set_option maxRecDepth 10000 in
/-- C1 counterexample: in the conservative 1000-unit scenario the returned
`expectedYield` is not 0.04 (the capital-weighted yield over the 250
actually allocated); the source divides the accumulated yield by the full
`totalAmount`. -/
theorem scenario_expectedYield_not_over_allocated :
    (optimizeForStrategy "conservative" scenarioOpportunities 1000).toOption.map
        AllocationResult.expectedYield ≠ some (some 0.04) := by
  with_unfolding_all decide

set_option maxRecDepth 10000 in
/-- C1 amended: the conservative scenario returns exactly one entry, for
"A", with amount 250 = min(1000, 1000 × 0.25); its `expectedYield` is
(250 × 0.04) / 1000 = 0.01, the capital-weighted yield over the full
`totalAmount` with the unallocated remainder counted at zero yield. -/
theorem scenario_allocation_result :
    optimizeForStrategy "conservative" scenarioOpportunities 1000 =
    .ok { strategy := some "Conservative Yield",
          allocations := [{ protocol := "A", amount := 250, percentage := 25,
                            expectedAPY := 0.04, risk := 0.5 }],
          totalAmount := some 1000,
          expectedYield := some 0.01,
          averageRisk := some 0.125,
          diversification := some 1 } := by
  with_unfolding_all decide

set_option maxRecDepth 10000 in
/-- C6 counterexample: with the known strategy "conservative", a
non-positive `totalAmount` (here −1) is not rejected: `optimize` returns an
AllocationResult (empty allocations, since the loop guard
`remainingAmount > 0` fails immediately). -/
theorem optimize_nonpositive_amount_returns :
    optimizeForStrategy "conservative"
      [⟨"A", "compound", 0.04, some 2000000000, some true, some 1000⟩] (-1) =
    .ok { strategy := some "Conservative Yield", allocations := [],
          totalAmount := some (-1), expectedYield := some 0,
          averageRisk := some 0, diversification := some 0 } := by
  with_unfolding_all decide

/-- C6 amended: an unknown strategy name makes `optimize` throw (the
source's generic `Error`, playing the spec's ConfigurationError role) and
no AllocationResult is produced; but `totalAmount ≤ 0` is never validated:
with any known strategy the call returns an AllocationResult normally. -/
theorem optimize_error_conditions :
    (∀ strategyName opps amount, getStrategy strategyName = none →
      optimizeForStrategy strategyName opps amount =
        .error ("Strategy " ++ strategyName ++ " not found")) ∧
    (∀ strategyName s opps amount, getStrategy strategyName = some s →
      amount ≤ 0 → ∃ r, optimizeForStrategy strategyName opps amount = .ok r) := by
  constructor
  · intro strategyName opps amount h
    unfold optimizeForStrategy
    rw [h]
  · intro strategyName s opps amount h _
    unfold optimizeForStrategy
    rw [h]
    by_cases hlen : (suitableFor s opps).length = 0
    · simp only [if_pos hlen]
      exact ⟨_, rfl⟩
    · simp only [if_neg hlen]
      exact ⟨_, rfl⟩

/-- Witness for C6 at the scenario inputs "ultraggressive" and a zero
amount with the conservative strategy. -/
theorem optimize_error_conditions_witness :
    optimizeForStrategy "ultraggressive" [] 100 =
      .error ("Strategy " ++ "ultraggressive" ++ " not found") ∧
    ∃ r, optimizeForStrategy "conservative" [] 0 = .ok r :=
  ⟨optimize_error_conditions.1 "ultraggressive" [] 100 (by with_unfolding_all decide),
   optimize_error_conditions.2 "conservative" conservative [] 0
     (by with_unfolding_all decide) (by norm_num)⟩

/-- C7 counterexample: an opportunity with `ageInDays` absent is scored
0.5 by `calculateRisk`, while the same opportunity with `ageInDays` 30
(younger than 90) is scored 0.8: the missing field does not receive the
young-protocol penalty the claim asserts. -/
theorem calculateRisk_missing_age_not_penalised :
    calculateRisk ⟨"P", "compound", 0.05, some 2000000000, some true, none⟩
        conservative = 0.5 ∧
    calculateRisk ⟨"P", "compound", 0.05, some 2000000000, some true, some 30⟩
        conservative = 0.8 ∧
    (0.5 : ℚ) ≠ 0.8 := by
  refine ⟨by with_unfolding_all decide, by with_unfolding_all decide, by norm_num⟩

/-- C7 amended: both risk scorers are total, with results clamped to
[0, 1]; a missing `audited` is penalised exactly like `audited: false`,
but a missing `ageInDays` (resp. a missing `tvl`) receives no penalty: it
is scored like an old (resp. liquid) protocol, because the JS comparison
`undefined < c` is false. -/
theorem risk_scorers_missing_fields (p : Opportunity) (s : Strategy) :
    (0 ≤ calculateRisk p s ∧ calculateRisk p s ≤ 1) ∧
    (0 ≤ assessRisk p ∧ assessRisk p ≤ 1) ∧
    calculateRisk { p with audited := none } s =
      calculateRisk { p with audited := some false } s ∧
    calculateRisk { p with ageInDays := none } s =
      calculateRisk { p with ageInDays := some 1000 } s ∧
    calculateRisk { p with tvl := none } s =
      calculateRisk { p with tvl := some 20000000 } s ∧
    assessRisk { p with audited := none } =
      assessRisk { p with audited := some false } ∧
    assessRisk { p with ageInDays := none } =
      assessRisk { p with ageInDays := some 1000 } ∧
    assessRisk { p with tvl := none } =
      assessRisk { p with tvl := some 20000000 } := by
  have hage : ¬((1000 : ℚ) < 90) := by norm_num
  have htvl : ¬((20000000 : ℚ) < 10000000) := by norm_num
  refine ⟨?_, ?_, ?_, ?_, ?_, ?_, ?_, ?_⟩
  · unfold calculateRisk
    split_ifs <;> constructor <;> norm_num [min_def]
  · unfold assessRisk
    split_ifs <;> constructor <;> norm_num [min_def]
  · simp [calculateRisk, jsTruthy]
  · simp [calculateRisk, jsLt, hage]
  · simp [calculateRisk, jsLt, htvl]
  · simp [assessRisk, jsTruthy]
  · simp [assessRisk, jsLt, hage]
  · simp [assessRisk, jsLt, htvl]

/-! ### Claims about the simulation engine's buy path -/

set_option maxRecDepth 10000 in
/-- C3: whenever the buy trigger fires, the decision phase does not produce
a buy of min(1000, availableCash × 0.1): it throws, because
`this.getAvailableCapital` is not defined anywhere in the repository.
Here: momentum 0.2 > 0.05 and an eligible compound protocol above the
conservative minimum yield. -/
theorem makeStrategyDecision_buy_throws :
    makeStrategyDecision "conservative"
      { timestamp := 5, prices := [("CompY", 1)],
        protocols := [⟨"CompY", "compound", 0.07, some 3000000000, some true, some 500⟩],
        signals := some ⟨0.2⟩ } [] = .error getAvailableCapitalMsg := by
  with_unfolding_all decide

/-- A snapshot whose buy trigger fires under the conservative strategy:
momentum 0.1 > 0.05 and an eligible compound protocol with apy 0.06 above
the minimum yield 0.02, priced at 200. -/
def buySnapshot : Snapshot :=
  { timestamp := 1, prices := [("CompX", 200)],
    protocols := [⟨"CompX", "compound", 0.06, some 2000000000, some true, some 1000⟩],
    signals := some ⟨0.1⟩ }

set_option maxRecDepth 10000 in
/-- C2: the execution phase has no cash-sufficiency guard: `executeBuy`
unconditionally constructs a trade (here cost 20000 at a cash capital of
10000), and a run whose buy trigger fires aborts with the
`getAvailableCapital` TypeError instead of silently skipping the trade. -/
theorem runBacktest_buy_not_guarded :
    runBacktest (fun _ => 0) "conservative" [buySnapshot] 0 100 10000 =
      .error getAvailableCapitalMsg ∧
    executeBuy "CompX" 100 [("CompX", 200)] 0 =
      { protocol := "CompX", amount := 100, price := 200,
        cost := some 20000, proceeds := none, timestamp := 0 } := ⟨by
  have hdec : makeStrategyDecision "conservative" buySnapshot [] =
      .error getAvailableCapitalMsg := by
    with_unfolding_all decide
  have hstep : backtestStep (fun _ => 0) "conservative" buySnapshot
      (initState 10000) = .error getAvailableCapitalMsg := by
    unfold backtestStep
    rw [show (initState (10000 : ℚ)).holdings = [] from rfl, hdec]
  have hfil : filterDataByDate [buySnapshot] 0 100 = [buySnapshot] := by
    simp only [filterDataByDate, buySnapshot, List.filter]
    norm_num
  have hloop : backtestLoop (fun _ => 0) "conservative" [buySnapshot]
      (initState 10000) = .error getAvailableCapitalMsg := by
    unfold backtestLoop
    rw [hstep]
  simp only [runBacktest]
  rw [hfil, hloop],
  by
  simp only [executeBuy, jsPriceOr1, List.lookup]
  norm_num⟩

/-! ### Valuation phase (claim C5) -/

/-- C5 counterexample: a held protocol with no active price contributes
quantity × 1 (the `|| 1` default), not 0: five units held with an empty
price map are valued 5. -/
theorem calculatePortfolioValue_missing_price_not_zero :
    calculatePortfolioValue [("A", 5)] [] = 5 ∧ (5 : ℚ) ≠ 0 := by
  refine ⟨by with_unfolding_all decide, by norm_num⟩

/-- C5 amended: in the valuation phase `holdingsValue` is the sum over held
protocols of quantity × current price, where the price of a protocol absent
from the snapshot's price map defaults to 1 (so such a protocol contributes
its quantity, not 0). -/
theorem calculatePortfolioValue_sum (holdings prices : List (String × ℚ)) :
    calculatePortfolioValue holdings prices =
      (holdings.map fun e => e.2 * jsPriceOr1 e.1 prices).sum ∧
    ∀ protocolName, prices.lookup protocolName = none →
      jsPriceOr1 protocolName prices = 1 := by
  constructor
  · have key : ∀ (l : List (String × ℚ)) (a : ℚ),
        l.foldl (fun t e => t + e.2 * jsPriceOr1 e.1 prices) a =
          a + (l.map fun e => e.2 * jsPriceOr1 e.1 prices).sum := by
      intro l
      induction l with
      | nil => intro a; simp
      | cons x xs ih => intro a; simp [ih, add_assoc]
    simpa [calculatePortfolioValue] using key holdings 0
  · intro protocolName h
    simp [jsPriceOr1, h]

/-- Witness for C5 at a concrete held protocol with no price. -/
theorem calculatePortfolioValue_sum_witness :
    calculatePortfolioValue [("A", 5)] [] =
      ([("A", 5)].map fun e => e.2 * jsPriceOr1 e.1 ([] : List (String × ℚ))).sum ∧
    jsPriceOr1 "A" [] = 1 :=
  ⟨(calculatePortfolioValue_sum [("A", 5)] []).1,
   (calculatePortfolioValue_sum [("A", 5)] []).2 "A" rfl⟩

/-! ### Sorting and allocation-cap properties (claims C8 and C9) -/

/-- The risk-adjusted score of an allocation entry, reconstructed from the
fields `createAllocation` copies verbatim from the opportunity. -/
def entryScore (e : AllocationEntry) : ℚ := e.expectedAPY * (1 - e.risk)

/-- Projection of an allocation entry onto the fields copied from its
originating opportunity: protocol name, apy, risk. -/
def entryProj (e : AllocationEntry) : String × ℚ × ℚ :=
  (e.protocol, e.expectedAPY, e.risk)

/-- The matching projection of an opportunity. -/
def oppProj (strategy : Strategy) (p : Opportunity) : String × ℚ × ℚ :=
  (p.name, p.apy, calculateRisk p strategy)

/-- Inserting an element into a list keeps the elements of any given score
class intact: stability of `orderedInsert` for a descending key order. -/
theorem filter_orderedInsert_key {α : Type} (f : α → ℚ) (q : ℚ) (a : α) :
    ∀ l : List α,
      ((l.orderedInsert (fun x y => f y ≤ f x) a).filter fun x => decide (f x = q)) =
        if f a = q then a :: l.filter (fun x => decide (f x = q))
        else l.filter (fun x => decide (f x = q)) := by
  intro l
  induction l with
  | nil =>
    by_cases hq : f a = q <;> simp [List.orderedInsert, hq]
  | cons b l ih =>
    simp only [List.orderedInsert]
    by_cases hr : f b ≤ f a
    · rw [if_pos hr]
      by_cases hq : f a = q <;> simp [List.filter_cons, hq]
    · rw [if_neg hr]
      have hlt : f a < f b := lt_of_not_le hr
      by_cases hq : f a = q
      · have hbq : ¬(f b = q) := fun hb => absurd (hb.trans hq.symm) (ne_of_gt hlt)
        simp [List.filter_cons, ih, hq, hbq]
      · by_cases hbq : f b = q <;> simp [List.filter_cons, ih, hq, hbq]

/-- Stability of the stable sort: sorting by a descending key preserves
each score class as a subsequence, elementwise in original order. -/
theorem filter_insertionSort_key {α : Type} (f : α → ℚ) (q : ℚ) :
    ∀ l : List α,
      ((List.insertionSort (fun x y => f y ≤ f x) l).filter fun x => decide (f x = q)) =
        l.filter (fun x => decide (f x = q)) := by
  intro l
  induction l with
  | nil => rfl
  | cons a l ih =>
    simp only [List.insertionSort]
    rw [filter_orderedInsert_key f q a]
    by_cases hq : f a = q <;> simp [List.filter_cons, ih, hq]

/-- The stable sort by a descending key produces a list that is pairwise
non-increasing in the key. -/
theorem pairwise_insertionSort_key {α : Type} (f : α → ℚ) (l : List α) :
    (List.insertionSort (fun x y => f y ≤ f x) l).Pairwise (fun x y => f y ≤ f x) := by
  haveI : IsTotal α (fun x y => f y ≤ f x) := ⟨fun a b => le_total (f b) (f a)⟩
  haveI : IsTrans α (fun x y => f y ≤ f x) := ⟨fun _ _ _ h₁ h₂ => le_trans h₂ h₁⟩
  exact List.sorted_insertionSort _ l

/-- Accounting of the allocation loop: the remainder stays non-negative,
the amounts handed out sum to exactly what was consumed, and every single
amount respects the per-protocol cap. -/
theorem allocLoop_amounts (strategy : Strategy) (totalAmount : ℚ) :
    ∀ (ps : List Opportunity) (remainingAmount : ℚ), 0 ≤ remainingAmount →
      0 ≤ (allocLoop strategy totalAmount ps remainingAmount).2.2.2 ∧
      ((allocLoop strategy totalAmount ps remainingAmount).1.map
          AllocationEntry.amount).sum =
        remainingAmount - (allocLoop strategy totalAmount ps remainingAmount).2.2.2 ∧
      ∀ e ∈ (allocLoop strategy totalAmount ps remainingAmount).1,
        e.amount ≤ totalAmount * strategy.maxSingleAllocation := by
  intro ps
  induction ps with
  | nil =>
    intro r hr
    exact ⟨hr, by simp [allocLoop], by simp [allocLoop]⟩
  | cons p ps ih =>
    intro r hr
    by_cases h : 0 < r
    · have hmin_le : min r (totalAmount * strategy.maxSingleAllocation) ≤ r :=
        min_le_left _ _
      have hr' : 0 ≤ r - min r (totalAmount * strategy.maxSingleAllocation) := by
        linarith
      obtain ⟨h1, h2, h3⟩ := ih (r - min r (totalAmount * strategy.maxSingleAllocation)) hr'
      simp only [allocLoop, if_pos h]
      refine ⟨h1, ?_, ?_⟩
      · simp only [List.map_cons, List.sum_cons, h2]
        ring
      · intro e he
        rcases List.mem_cons.mp he with he | he
        · rw [he]
          exact min_le_right _ _
        · exact h3 e he
    · simp only [allocLoop, if_neg h]
      exact ⟨hr, by simp, by simp⟩

/-- The entries produced by the allocation loop are, up to the per-entry
amounts, exactly the image of a prefix of the input protocol list. -/
theorem allocLoop_proj (strategy : Strategy) (totalAmount : ℚ) :
    ∀ (ps : List Opportunity) (remainingAmount : ℚ),
      ∃ k, (allocLoop strategy totalAmount ps remainingAmount).1.map entryProj =
        (ps.take k).map (oppProj strategy) := by
  intro ps
  induction ps with
  | nil => exact fun r => ⟨0, rfl⟩
  | cons p ps ih =>
    intro r
    by_cases h : 0 < r
    · obtain ⟨k, hk⟩ :=
        ih (r - min r (totalAmount * strategy.maxSingleAllocation))
      refine ⟨k + 1, ?_⟩
      simp only [allocLoop, if_pos h, List.map_cons, List.take_succ_cons]
      exact congrArg (List.cons (oppProj strategy p)) hk
    · exact ⟨0, by simp [allocLoop, if_neg h]⟩

/-- C9: for every strategy, every opportunity set and every positive
totalAmount, a successful optimize returns at most 5 entries, their
amounts sum to at most totalAmount, and no single amount exceeds
totalAmount × maxSingleAllocation. -/
theorem allocation_caps (strategyName : String) (s : Strategy)
    (opps : List Opportunity) (amount : ℚ) (r : AllocationResult)
    (hs : getStrategy strategyName = some s) (hpos : 0 < amount)
    (hok : optimizeForStrategy strategyName opps amount = .ok r) :
    r.allocations.length ≤ 5 ∧
    (r.allocations.map AllocationEntry.amount).sum ≤ amount ∧
    ∀ e ∈ r.allocations, e.amount ≤ amount * s.maxSingleAllocation := by
  simp only [optimizeForStrategy, hs] at hok
  by_cases hlen : (suitableFor s opps).length = 0
  · rw [if_pos hlen] at hok
    injection hok with h
    subst h
    exact ⟨by simp, by simp [le_of_lt hpos], by simp⟩
  · rw [if_neg hlen] at hok
    injection hok with h
    subst h
    simp only [createAllocation]
    obtain ⟨h1, h2, h3⟩ := allocLoop_amounts s amount
      ((List.insertionSort (scoreGe s) (suitableFor s opps)).take
        (min (List.insertionSort (scoreGe s) (suitableFor s opps)).length 5))
      amount (le_of_lt hpos)
    obtain ⟨k, hk⟩ := allocLoop_proj s amount
      ((List.insertionSort (scoreGe s) (suitableFor s opps)).take
        (min (List.insertionSort (scoreGe s) (suitableFor s opps)).length 5))
      amount
    refine ⟨?_, by rw [h2]; linarith, h3⟩
    have hlen1 := congrArg List.length hk
    simp only [List.length_map, List.length_take] at hlen1
    rw [hlen1]
    exact le_trans (min_le_right _ _) (le_trans (min_le_left _ _) (min_le_right _ _))

/-- A one-element eligible opportunity set with small numerals, for
concrete witnesses: compound, apy 0.04, tvl 5 (illiquid), audited, 100
days old; its `calculateRisk` is 0.7 and its score 0.012. -/
def capOpportunities : List Opportunity :=
  [⟨"A", "compound", 0.04, some 5, some true, some 100⟩]

/-- The allocation the conservative strategy produces for
`capOpportunities` at totalAmount 100. -/
def capResult : AllocationResult :=
  { strategy := some "Conservative Yield",
    allocations := [⟨"A", 25, 25, 0.04, 0.7⟩],
    totalAmount := some 100, expectedYield := some 0.01,
    averageRisk := some 0.175, diversification := some 1 }

set_option maxRecDepth 10000 in
/-- Witness for C9 at the concrete conservative run on
`capOpportunities` with totalAmount 100. -/
theorem allocation_caps_witness :
    capResult.allocations.length ≤ 5 ∧
    (capResult.allocations.map AllocationEntry.amount).sum ≤ 100 ∧
    ∀ e ∈ capResult.allocations,
      e.amount ≤ 100 * conservative.maxSingleAllocation :=
  allocation_caps "conservative" conservative capOpportunities 100 capResult
    (by with_unfolding_all decide) (by norm_num)
    (by with_unfolding_all decide)

/-- C8: the entries of every successful optimize are sorted in
non-increasing order of risk-adjusted score (`apy × (1 − risk)`), and for
every score value the entries carrying that score list their protocols as
a subsequence of the eligible opportunities with that score in their
original input order (stability of the sort, hence a deterministic output
order). -/
theorem allocation_sorted_stable (strategyName : String) (s : Strategy)
    (opps : List Opportunity) (amount : ℚ) (r : AllocationResult)
    (hs : getStrategy strategyName = some s)
    (hok : optimizeForStrategy strategyName opps amount = .ok r) :
    List.Sorted (fun e f => entryScore f ≤ entryScore e) r.allocations ∧
    ∀ q : ℚ,
      List.Sublist
        ((r.allocations.filter fun e => decide (entryScore e = q)).map
          AllocationEntry.protocol)
        (((suitableFor s opps).filter fun p =>
            decide (riskAdjustedReturn s p = q)).map Opportunity.name) := by
  simp only [optimizeForStrategy, hs] at hok
  by_cases hlen : (suitableFor s opps).length = 0
  · rw [if_pos hlen] at hok
    injection hok with h
    subst h
    exact ⟨by simp, fun q => by simp⟩
  · rw [if_neg hlen] at hok
    injection hok with h
    subst h
    simp only [createAllocation]
    obtain ⟨k, hk⟩ := allocLoop_proj s amount
      ((List.insertionSort (scoreGe s) (suitableFor s opps)).take
        (min (List.insertionSort (scoreGe s) (suitableFor s opps)).length 5))
      amount
    have hsorted : (List.insertionSort (scoreGe s) (suitableFor s opps)).Pairwise
        (scoreGe s) :=
      pairwise_insertionSort_key (riskAdjustedReturn s) (suitableFor s opps)
    have htake : (((List.insertionSort (scoreGe s) (suitableFor s opps)).take
        (min (List.insertionSort (scoreGe s) (suitableFor s opps)).length 5)).take
          k).Pairwise (scoreGe s) :=
      (hsorted.sublist (List.take_sublist _ _)).sublist (List.take_sublist _ _)
    constructor
    · have hmapped : ((((List.insertionSort (scoreGe s) (suitableFor s opps)).take
          (min (List.insertionSort (scoreGe s) (suitableFor s opps)).length 5)).take
            k).map (oppProj s)).Pairwise
          (fun t u : String × ℚ × ℚ => u.2.1 * (1 - u.2.2) ≤ t.2.1 * (1 - t.2.2)) :=
        List.pairwise_map.mpr htake
      rw [← hk] at hmapped
      exact List.pairwise_map.mp hmapped
    · intro q
      have h1 : (((allocLoop s amount
            ((List.insertionSort (scoreGe s) (suitableFor s opps)).take
              (min (List.insertionSort (scoreGe s) (suitableFor s opps)).length 5))
            amount).1.filter fun e => decide (entryScore e = q)).map
              AllocationEntry.protocol) =
          ((((List.insertionSort (scoreGe s) (suitableFor s opps)).take
            (min (List.insertionSort (scoreGe s) (suitableFor s opps)).length 5)).take
              k).filter fun p => decide (riskAdjustedReturn s p = q)).map
                Opportunity.name := by
        have e1 : (((allocLoop s amount
              ((List.insertionSort (scoreGe s) (suitableFor s opps)).take
                (min (List.insertionSort (scoreGe s) (suitableFor s opps)).length 5))
              amount).1.map entryProj).filter fun t =>
                decide (t.2.1 * (1 - t.2.2) = q)).map Prod.fst =
            (((allocLoop s amount
              ((List.insertionSort (scoreGe s) (suitableFor s opps)).take
                (min (List.insertionSort (scoreGe s) (suitableFor s opps)).length 5))
              amount).1.filter fun e => decide (entryScore e = q)).map
                AllocationEntry.protocol) := by
          rw [List.filter_map, List.map_map]
          rfl
        have e2 : ((((((List.insertionSort (scoreGe s) (suitableFor s opps)).take
              (min (List.insertionSort (scoreGe s) (suitableFor s opps)).length 5)).take
                k).map (oppProj s)).filter fun t =>
                  decide (t.2.1 * (1 - t.2.2) = q)).map Prod.fst) =
            ((((List.insertionSort (scoreGe s) (suitableFor s opps)).take
              (min (List.insertionSort (scoreGe s) (suitableFor s opps)).length 5)).take
                k).filter fun p => decide (riskAdjustedReturn s p = q)).map
                  Opportunity.name := by
          rw [List.filter_map, List.map_map]
          rfl
        rw [← e1, hk, e2]
      rw [h1]
      have hsub1 : List.Sublist
          ((((List.insertionSort (scoreGe s) (suitableFor s opps)).take
            (min (List.insertionSort (scoreGe s) (suitableFor s opps)).length 5)).take
              k).filter fun p => decide (riskAdjustedReturn s p = q))
          ((List.insertionSort (scoreGe s) (suitableFor s opps)).filter
            fun p => decide (riskAdjustedReturn s p = q)) :=
        ((List.take_sublist _ _).trans (List.take_sublist _ _)).filter _
      have hstab : ((List.insertionSort (scoreGe s) (suitableFor s opps)).filter
            fun p => decide (riskAdjustedReturn s p = q)) =
          ((suitableFor s opps).filter fun p => decide (riskAdjustedReturn s p = q)) :=
        filter_insertionSort_key (riskAdjustedReturn s) q (suitableFor s opps)
      rw [hstab] at hsub1
      exact hsub1.map Opportunity.name

set_option maxRecDepth 10000 in
/-- Witness for C8 at the concrete conservative run on `capOpportunities`,
instantiating the score class at the entry's score 0.012. -/
theorem allocation_sorted_stable_witness :
    List.Sorted (fun e f => entryScore f ≤ entryScore e) capResult.allocations ∧
    List.Sublist
      ((capResult.allocations.filter fun e => decide (entryScore e = 0.012)).map
        AllocationEntry.protocol)
      (((suitableFor conservative capOpportunities).filter fun p =>
          decide (riskAdjustedReturn conservative p = 0.012)).map Opportunity.name) :=
  ⟨(allocation_sorted_stable "conservative" conservative capOpportunities 100 capResult
      (by with_unfolding_all decide) (by with_unfolding_all decide)).1,
   (allocation_sorted_stable "conservative" conservative capOpportunities 100 capResult
      (by with_unfolding_all decide) (by with_unfolding_all decide)).2 0.012⟩
